import Mathlib

/-!
Verification of the AEP arrival-sequencing simulation core
(`Depenedencias.py`): aircraft state machine, sequencing queue,
gap computation, speed control, arrival generator and disruption
processes, shallowly embedded over `ℚ`.

Python floats are modelled by rationals; the float value `inf`
occurring in gap fields is modelled by `⊤ : WithTop ℚ`; Python's
`None` is modelled by `Option`; a raised exception is modelled by
`Option` at the raising function's result type.
-/

namespace AEP

/-! ### Global constants (module-level parameters of the source) -/

def DISTANCIA_INICIAL : ℚ := 100
def VEL_MARCHA_ATRAS : ℚ := 200
def GAP_MIN : ℚ := 4
def GAP_BUFFER : ℚ := 5
def GAP_REINSERCION : ℚ := 10

/-! ### Data model -/

/-- The four aircraft states of the source. -/
inductive Estado where
  | en_vuelo
  | marcha_atras
  | aterrizado
  | desviado
deriving DecidableEq, Repr

/-- A gap value: a finite number of minutes or the float `inf`. -/
abbrev GapT := WithTop ℚ

/-- One history snapshot, as appended by `registrar_estado`. -/
structure Registro where
  minuto : ℤ
  pos : ℚ
  vel : ℚ
  estado : Estado
  gap_adelante : Option GapT
  lead_id : Option ℕ
  gap_atras : Option GapT
  tail_id : Option ℕ
deriving DecidableEq, Repr

/-- The `Avion` record: all mutable attributes of the Python class. -/
structure Avion where
  num : ℕ
  tiempo_radar : ℤ
  posicion : ℚ
  estado : Estado
  velocidad_actual : ℚ
  gap_adelante : Option GapT
  lead_id : Option ℕ
  gap_atras : Option GapT
  tail_id : Option ℕ
  atraso : ℕ
  historial_posiciones : List Registro
deriving DecidableEq, Repr

/-- The aggregate counters of the `resultados` dictionary. -/
structure Resultados where
  aterrizados : ℕ
  desviados : ℕ
  congestion : ℕ
deriving DecidableEq, Repr

/-- Fresh counters, as produced by `inicializar_resultados`. -/
def inicializar_resultados : Resultados :=
  { aterrizados := 0, desviados := 0, congestion := 0 }

/-! ### Allowed speed bands (`Avion.velocidad_permitida`) -/

/-- `velocidad_permitida`: the pair `(vel_max, vel_min)` in knots as a step
function of the distance to AEP, exactly the chain of comparisons of the
source. -/
def velocidad_permitida (d : ℚ) : ℚ × ℚ :=
  if d > 100 then (500, 300)
  else if d > 50 then (300, 250)
  else if d > 15 then (250, 200)
  else if d > 5 then (200, 150)
  else (150, 120)

def Avion.vel_max_actual (a : Avion) : ℚ := (velocidad_permitida a.posicion).1

def Avion.vel_min_actual (a : Avion) : ℚ := (velocidad_permitida a.posicion).2

/-! ### History and kinematics -/

/-- The snapshot of the current attributes recorded at `minuto` with the
given reported speed. -/
def Avion.snapshot (a : Avion) (minuto : ℤ) (vel : ℚ) : Registro :=
  { minuto := minuto, pos := a.posicion, vel := vel, estado := a.estado,
    gap_adelante := a.gap_adelante, lead_id := a.lead_id,
    gap_atras := a.gap_atras, tail_id := a.tail_id }

/-- `registrar_estado`: append a snapshot; `vel = none` reports the current
speed (the Python default argument). -/
def Avion.registrar_estado (a : Avion) (minuto : ℤ) (vel : Option ℚ) : Avion :=
  { a with historial_posiciones :=
      a.historial_posiciones ++ [a.snapshot minuto (vel.getD a.velocidad_actual)] }

/-- `Avion.__init__`: a fresh aircraft at its entry distance, flying at the
band maximum, with the seed history entry at `tiempo_radar - 1`. -/
def Avion.crear (num : ℕ) (tiempo_radar : ℤ) (distancia_inicial : ℚ) : Avion :=
  let a : Avion :=
    { num := num, tiempo_radar := tiempo_radar, posicion := distancia_inicial,
      estado := Estado.en_vuelo,
      velocidad_actual := (velocidad_permitida distancia_inicial).1,
      gap_adelante := none, lead_id := none, gap_atras := none, tail_id := none,
      atraso := 0, historial_posiciones := [] }
  { a with historial_posiciones := [a.snapshot (tiempo_radar - 1) a.velocidad_actual] }

/-- `Avion.avanzar_minuto`: terminal states and `marcha_atras` only log;
a flying aircraft moves `vel/60*dt` towards AEP, clamped at 0, landing on
reaching 0 (the landing snapshot reports speed 0 while `velocidad_actual`
itself is left untouched, as in the source). -/
def Avion.avanzar_minuto (a : Avion) (minuto : ℤ) (dt : ℚ) : Avion :=
  if a.estado = Estado.aterrizado ∨ a.estado = Estado.desviado then
    a.registrar_estado minuto (some 0)
  else if a.estado = Estado.marcha_atras then
    a.registrar_estado minuto none
  else
    let vel := a.velocidad_actual
    let avance := vel / 60 * dt
    let pos1 := max 0 (a.posicion - avance)
    if pos1 ≤ 0 then
      ({ a with posicion := 0, estado := Estado.aterrizado } : Avion).registrar_estado
        minuto (some 0)
    else
      ({ a with posicion := pos1 } : Avion).registrar_estado minuto (some vel)

/-- `marcar_desviado`. -/
def Avion.marcar_desviado (a : Avion) : Avion :=
  { a with estado := Estado.desviado, velocidad_actual := 0 }

/-- `iniciar_marcha_atras`. -/
def Avion.iniciar_marcha_atras (a : Avion) : Avion :=
  { a with estado := Estado.marcha_atras }

/-! ### Speed control (`Fila.actualizar_velocidades`) -/

/-- The body of the `actualizar_velocidades` loop for one aircraft: the
updated record, whether it goes to the `en_vuelo_activos` list (`true`) or
the `marcha_atras` list (`false`), and the congestion-counter increment. -/
def pasoVelocidad (a : Avion) : Avion × Bool × ℕ :=
  if a.estado = Estado.marcha_atras then (a, false, 0)
  else
    let vmax := a.vel_max_actual
    let vmin := a.vel_min_actual
    match a.gap_adelante with
    | none =>
        ({ a with
            velocidad_actual :=
              if a.velocidad_actual < vmax then vmax else a.velocidad_actual
            estado := Estado.en_vuelo }, true, 0)
    | some gap =>
        if gap < (GAP_MIN : GapT) then
          let vel_reducida := a.velocidad_actual - 20
          if vel_reducida < vmin then
            ({ a with
                velocidad_actual := -VEL_MARCHA_ATRAS,
                estado := Estado.marcha_atras }, false, 0)
          else
            ({ a with
                velocidad_actual := vel_reducida,
                estado := Estado.en_vuelo }, true, 1)
        else if (GAP_BUFFER : GapT) ≤ gap then
          ({ a with
              velocidad_actual :=
                if a.velocidad_actual < vmax then vmax else a.velocidad_actual
              estado := Estado.en_vuelo }, true, 0)
        else
          ({ a with estado := Estado.en_vuelo }, true, 0)

/-- `Fila.actualizar_velocidades` over the queue's list: returns the
`en_vuelo_activos` list, the `marcha_atras` list and the updated counters. -/
def actualizar_velocidades : List Avion → Resultados → List Avion × List Avion × Resultados
  | [], res => ([], [], res)
  | a :: rest, res =>
      let p := pasoVelocidad a
      let r := actualizar_velocidades rest
        { res with congestion := res.congestion + p.2.2 }
      if p.2.1 then (p.1 :: r.1, r.2.1, r.2.2) else (r.1, p.1 :: r.2.1, r.2.2)

theorem pasoVelocidad_mem_vuelo (a : Avion) :
    ∀ (l : List Avion) (res : Resultados), a ∈ l → (pasoVelocidad a).2.1 = true →
      (pasoVelocidad a).1 ∈ (actualizar_velocidades l res).1 := by
  intro l
  induction l with
  | nil => intro res ha _; cases ha
  | cons b rest ih =>
      intro res ha h
      rcases List.mem_cons.mp ha with rfl | ha'
      · simp only [actualizar_velocidades, h, if_true]
        exact List.mem_cons_self _ _
      · have hrec := ih { res with
          congestion := res.congestion + (pasoVelocidad b).2.2 } ha' h
        simp only [actualizar_velocidades]
        by_cases hb : (pasoVelocidad b).2.1 = true
        · simp only [hb, if_true]
          exact List.mem_cons_of_mem _ hrec
        · simp only [Bool.not_eq_true] at hb
          simp only [hb, Bool.false_eq_true, if_false]
          exact hrec

theorem pasoVelocidad_mem_atras (a : Avion) :
    ∀ (l : List Avion) (res : Resultados), a ∈ l → (pasoVelocidad a).2.1 = false →
      (pasoVelocidad a).1 ∈ (actualizar_velocidades l res).2.1 := by
  intro l
  induction l with
  | nil => intro res ha _; cases ha
  | cons b rest ih =>
      intro res ha h
      rcases List.mem_cons.mp ha with rfl | ha'
      · simp only [actualizar_velocidades, h, Bool.false_eq_true, if_false]
        exact List.mem_cons_self _ _
      · have hrec := ih { res with
          congestion := res.congestion + (pasoVelocidad b).2.2 } ha' h
        simp only [actualizar_velocidades]
        by_cases hb : (pasoVelocidad b).2.1 = true
        · simp only [hb, if_true]
          exact hrec
        · simp only [Bool.not_eq_true] at hb
          simp only [hb, Bool.false_eq_true, if_false]
          exact List.mem_cons_of_mem _ hrec

theorem actualizar_velocidades_congestion (l : List Avion) (res : Resultados) :
    (actualizar_velocidades l res).2.2.congestion =
      res.congestion + (l.map fun b => (pasoVelocidad b).2.2).sum := by
  induction l generalizing res with
  | nil => simp [actualizar_velocidades]
  | cons b rest ih =>
      simp only [actualizar_velocidades, List.map_cons, List.sum_cons]
      by_cases hb : (pasoVelocidad b).2.1 = true
      · simp only [hb, if_true]
        rw [ih]
        simp [Nat.add_assoc]
      · simp only [Bool.not_eq_true] at hb
        simp only [hb, Bool.false_eq_true, if_false]
        rw [ih]
        simp [Nat.add_assoc]

/-- A minimal aircraft record used to instantiate witness theorems. -/
def avionDemo (pos vel : ℚ) (est : Estado) (gap : Option GapT) : Avion :=
  { num := 1, tiempo_radar := 0, posicion := pos, estado := est,
    velocidad_actual := vel, gap_adelante := gap, lead_id := none,
    gap_atras := none, tail_id := none, atraso := 0, historial_posiciones := [] }

/-- **C1.** One pass of `Fila.actualizar_velocidades` acts on each flying
aircraft with computed gap `g` by cases: no leader or `g ≥ 5` (infinity
included) raises the speed to the band maximum whenever it is below it and
the state stays `en_vuelo`; `4 ≤ g < 5` leaves speed and state unchanged;
`g < 4` subtracts exactly 20 knots when the result is still at least the
band minimum (state `en_vuelo`, congestion counter incremented by 1) and
otherwise sets the speed to `-VEL_MARCHA_ATRAS` and the state to
`marcha_atras`. In particular `g = 4` does not trigger the hard-minimum
branch and `g = 5` triggers the buffer branch. -/
theorem velocidades_politica_casos (l : List Avion) (res : Resultados) (a : Avion)
    (hmem : a ∈ l) (hfly : a.estado = Estado.en_vuelo) :
    ((a.gap_adelante = none ∨
        (∃ g, a.gap_adelante = some g ∧ (GAP_BUFFER : GapT) ≤ g)) →
      (pasoVelocidad a).1.estado = Estado.en_vuelo ∧
      (pasoVelocidad a).1.velocidad_actual =
        (if a.velocidad_actual < (velocidad_permitida a.posicion).1
          then (velocidad_permitida a.posicion).1 else a.velocidad_actual) ∧
      (pasoVelocidad a).2 = (true, 0) ∧
      (pasoVelocidad a).1 ∈ (actualizar_velocidades l res).1) ∧
    (∀ g : GapT, a.gap_adelante = some g → (GAP_MIN : GapT) ≤ g →
        g < (GAP_BUFFER : GapT) →
      (pasoVelocidad a).1.estado = Estado.en_vuelo ∧
      (pasoVelocidad a).1.velocidad_actual = a.velocidad_actual ∧
      (pasoVelocidad a).2 = (true, 0) ∧
      (pasoVelocidad a).1 ∈ (actualizar_velocidades l res).1) ∧
    (∀ g : GapT, a.gap_adelante = some g → g < (GAP_MIN : GapT) →
        (velocidad_permitida a.posicion).2 ≤ a.velocidad_actual - 20 →
      (pasoVelocidad a).1.estado = Estado.en_vuelo ∧
      (pasoVelocidad a).1.velocidad_actual = a.velocidad_actual - 20 ∧
      (pasoVelocidad a).2 = (true, 1) ∧
      (pasoVelocidad a).1 ∈ (actualizar_velocidades l res).1) ∧
    (∀ g : GapT, a.gap_adelante = some g → g < (GAP_MIN : GapT) →
        a.velocidad_actual - 20 < (velocidad_permitida a.posicion).2 →
      (pasoVelocidad a).1.estado = Estado.marcha_atras ∧
      (pasoVelocidad a).1.velocidad_actual = -VEL_MARCHA_ATRAS ∧
      (pasoVelocidad a).2 = (false, 0) ∧
      (pasoVelocidad a).1 ∈ (actualizar_velocidades l res).2.1) ∧
    (a.gap_adelante = some ((GAP_MIN : ℚ) : GapT) →
      (pasoVelocidad a).1.estado = Estado.en_vuelo ∧
      (pasoVelocidad a).1.velocidad_actual = a.velocidad_actual) ∧
    (a.gap_adelante = some ((GAP_BUFFER : ℚ) : GapT) →
      (pasoVelocidad a).1.estado = Estado.en_vuelo ∧
      (pasoVelocidad a).1.velocidad_actual =
        (if a.velocidad_actual < (velocidad_permitida a.posicion).1
          then (velocidad_permitida a.posicion).1 else a.velocidad_actual)) ∧
    (actualizar_velocidades l res).2.2.congestion =
      res.congestion + (l.map fun b => (pasoVelocidad b).2.2).sum := by
  have hne : ¬ a.estado = Estado.marcha_atras := by
    rw [hfly]; intro hc; cases hc
  refine ⟨?_, ?_, ?_, ?_, ?_, ?_, actualizar_velocidades_congestion l res⟩
  · rintro (hg | ⟨g, hg, hge⟩)
    · have hp : pasoVelocidad a =
          ({ a with
              velocidad_actual :=
                if a.velocidad_actual < (velocidad_permitida a.posicion).1
                  then (velocidad_permitida a.posicion).1 else a.velocidad_actual
              estado := Estado.en_vuelo }, true, 0) := by
        simp [pasoVelocidad, if_neg hne, hg, Avion.vel_max_actual]
      refine ⟨by rw [hp], by rw [hp], by rw [hp],
        pasoVelocidad_mem_vuelo a l res hmem (by rw [hp])⟩
    · have hnlt : ¬ g < (GAP_MIN : GapT) := by
        refine not_lt.mpr (le_trans ?_ hge)
        exact_mod_cast (by norm_num [GAP_MIN, GAP_BUFFER] : (GAP_MIN : ℚ) ≤ GAP_BUFFER)
      have hp : pasoVelocidad a =
          ({ a with
              velocidad_actual :=
                if a.velocidad_actual < (velocidad_permitida a.posicion).1
                  then (velocidad_permitida a.posicion).1 else a.velocidad_actual
              estado := Estado.en_vuelo }, true, 0) := by
        simp only [pasoVelocidad, if_neg hne, hg, Avion.vel_max_actual]
        rw [if_neg hnlt, if_pos hge]
      refine ⟨by rw [hp], by rw [hp], by rw [hp],
        pasoVelocidad_mem_vuelo a l res hmem (by rw [hp])⟩
  · intro g hg hge hlt
    have hnlt : ¬ g < (GAP_MIN : GapT) := not_lt.mpr hge
    have hnge : ¬ (GAP_BUFFER : GapT) ≤ g := not_le.mpr hlt
    have hp : pasoVelocidad a = ({ a with estado := Estado.en_vuelo }, true, 0) := by
      simp only [pasoVelocidad, if_neg hne, hg]
      rw [if_neg hnlt, if_neg hnge]
    refine ⟨by rw [hp], by rw [hp], by rw [hp],
      pasoVelocidad_mem_vuelo a l res hmem (by rw [hp])⟩
  · intro g hg hlt hok
    have hnlt : ¬ a.velocidad_actual - 20 < (velocidad_permitida a.posicion).2 :=
      not_lt.mpr hok
    have hp : pasoVelocidad a =
        ({ a with
            velocidad_actual := a.velocidad_actual - 20
            estado := Estado.en_vuelo }, true, 1) := by
      simp only [pasoVelocidad, if_neg hne, hg, Avion.vel_min_actual]
      rw [if_pos hlt, if_neg hnlt]
    refine ⟨by rw [hp], by rw [hp], by rw [hp],
      pasoVelocidad_mem_vuelo a l res hmem (by rw [hp])⟩
  · intro g hg hlt hbad
    have hp : pasoVelocidad a =
        ({ a with
            velocidad_actual := -VEL_MARCHA_ATRAS
            estado := Estado.marcha_atras }, false, 0) := by
      simp only [pasoVelocidad, if_neg hne, hg, Avion.vel_min_actual]
      rw [if_pos hlt, if_pos hbad]
    refine ⟨by rw [hp], by rw [hp], by rw [hp],
      pasoVelocidad_mem_atras a l res hmem (by rw [hp])⟩
  · intro hg
    have hnlt : ¬ ((GAP_MIN : ℚ) : GapT) < (GAP_MIN : GapT) := lt_irrefl _
    have hnge : ¬ (GAP_BUFFER : GapT) ≤ ((GAP_MIN : ℚ) : GapT) := by
      refine not_le.mpr ?_
      exact_mod_cast (by norm_num [GAP_MIN, GAP_BUFFER] : (GAP_MIN : ℚ) < GAP_BUFFER)
    have hp : pasoVelocidad a = ({ a with estado := Estado.en_vuelo }, true, 0) := by
      simp only [pasoVelocidad, if_neg hne, hg]
      rw [if_neg hnlt, if_neg hnge]
    exact ⟨by rw [hp], by rw [hp]⟩
  · intro hg
    have hnlt : ¬ ((GAP_BUFFER : ℚ) : GapT) < (GAP_MIN : GapT) := by
      refine not_lt.mpr ?_
      exact_mod_cast (by norm_num [GAP_MIN, GAP_BUFFER] : (GAP_MIN : ℚ) ≤ GAP_BUFFER)
    have hge : (GAP_BUFFER : GapT) ≤ ((GAP_BUFFER : ℚ) : GapT) := le_refl _
    have hp : pasoVelocidad a =
        ({ a with
            velocidad_actual :=
              if a.velocidad_actual < (velocidad_permitida a.posicion).1
                then (velocidad_permitida a.posicion).1 else a.velocidad_actual
            estado := Estado.en_vuelo }, true, 0) := by
      simp only [pasoVelocidad, if_neg hne, hg, Avion.vel_max_actual]
      rw [if_neg hnlt, if_pos hge]
    exact ⟨by rw [hp], by rw [hp]⟩

/-- Witness for C1: the spec scenario — gap 3 min, speed 160 kt, band
`(200,150)`: the 20-knot reduction would fall below 150, so the aircraft
goes around with speed −200 and lands in the `marcha_atras` list. -/
theorem velocidades_politica_casos_witness :
    (pasoVelocidad (avionDemo 10 160 Estado.en_vuelo (some ((3 : ℚ) : GapT)))).1.estado
        = Estado.marcha_atras ∧
    (pasoVelocidad (avionDemo 10 160 Estado.en_vuelo (some ((3 : ℚ) : GapT)))).1.velocidad_actual
        = -200 ∧
    (pasoVelocidad (avionDemo 10 160 Estado.en_vuelo (some ((3 : ℚ) : GapT)))).1 ∈
      (actualizar_velocidades [avionDemo 10 160 Estado.en_vuelo (some ((3 : ℚ) : GapT))]
        inicializar_resultados).2.1 := by
  have h := velocidades_politica_casos
    [avionDemo 10 160 Estado.en_vuelo (some ((3 : ℚ) : GapT))] inicializar_resultados
    (avionDemo 10 160 Estado.en_vuelo (some ((3 : ℚ) : GapT)))
    (List.mem_singleton.mpr rfl) rfl
  obtain ⟨-, -, -, h4, -, -, -⟩ := h
  have hres := h4 ((3 : ℚ) : GapT) rfl
    (by exact_mod_cast (by norm_num [GAP_MIN] : (3 : ℚ) < GAP_MIN))
    (by norm_num [avionDemo, velocidad_permitida])
  refine ⟨hres.1, ?_, hres.2.2.2⟩
  rw [hres.2.1]
  norm_num [VEL_MARCHA_ATRAS]

/-- **C2** (code bug): the docstring of `actualizar_velocidades` states rule
1 as "if the current speed exceeds the zone's maximum, reduce it to the
maximum", but the implementation has no such clamp: a flying aircraft at
95 nm (band maximum 300) with speed 500 and gap 4.5 min falls into the
hold branch and keeps speed 500 after the pass. -/
theorem velocidades_sin_clamp_vmax :
    (velocidad_permitida 95).1 = 300 ∧
    (pasoVelocidad (avionDemo 95 500 Estado.en_vuelo
      (some ((9/2 : ℚ) : GapT)))).1.velocidad_actual = 500 ∧
    (pasoVelocidad (avionDemo 95 500 Estado.en_vuelo
      (some ((9/2 : ℚ) : GapT)))).1.estado = Estado.en_vuelo ∧
    ((actualizar_velocidades
        [avionDemo 95 500 Estado.en_vuelo (some ((9/2 : ℚ) : GapT))]
        inicializar_resultados).1.map Avion.velocidad_actual) = [500] := by
  have h1 : ¬ (((9/2 : ℚ) : GapT) < (GAP_MIN : GapT)) := by
    rw [WithTop.coe_lt_coe]
    norm_num [GAP_MIN]
  have h2 : ¬ ((GAP_BUFFER : GapT) ≤ ((9/2 : ℚ) : GapT)) := by
    rw [WithTop.coe_le_coe]
    norm_num [GAP_BUFFER]
  have hp : pasoVelocidad (avionDemo 95 500 Estado.en_vuelo (some ((9/2 : ℚ) : GapT))) =
      ({ avionDemo 95 500 Estado.en_vuelo (some ((9/2 : ℚ) : GapT)) with
          estado := Estado.en_vuelo }, true, 0) := by
    simp only [pasoVelocidad, avionDemo]
    rw [if_neg (by intro hc; cases hc)]
    rw [if_neg h1, if_neg h2]
  refine ⟨by norm_num [velocidad_permitida], by rw [hp]; simp [avionDemo],
    by rw [hp], ?_⟩
  simp only [actualizar_velocidades, hp, if_true]
  simp [avionDemo]

/-- **C10.** `Fila.actualizar_velocidades` leaves every `marcha_atras`
aircraft completely unmodified and merely collects it into the returned
reversing list; every other aircraft — including one already `aterrizado`
or `desviado` — has its state overwritten to `en_vuelo` (or `marcha_atras`
via the go-around branch), so terminal states are not preserved. -/
theorem velocidades_estados_no_preservados (l : List Avion) (res : Resultados)
    (a : Avion) (hmem : a ∈ l) :
    (a.estado = Estado.marcha_atras →
      pasoVelocidad a = (a, false, 0) ∧ a ∈ (actualizar_velocidades l res).2.1) ∧
    (a.estado ≠ Estado.marcha_atras →
      ((pasoVelocidad a).1.estado = Estado.en_vuelo ∨
        (pasoVelocidad a).1.estado = Estado.marcha_atras) ∧
      (pasoVelocidad a).1.estado ≠ Estado.aterrizado ∧
      (pasoVelocidad a).1.estado ≠ Estado.desviado ∧
      ((pasoVelocidad a).2.1 = true →
        (pasoVelocidad a).1 ∈ (actualizar_velocidades l res).1) ∧
      ((pasoVelocidad a).2.1 = false →
        (pasoVelocidad a).1 ∈ (actualizar_velocidades l res).2.1)) := by
  constructor
  · intro hma
    have hp : pasoVelocidad a = (a, false, 0) := by
      simp [pasoVelocidad, if_pos hma]
    refine ⟨hp, ?_⟩
    have := pasoVelocidad_mem_atras a l res hmem (by rw [hp])
    rwa [hp] at this
  · intro hne
    have hstep : (pasoVelocidad a).1.estado = Estado.en_vuelo ∨
        (pasoVelocidad a).1.estado = Estado.marcha_atras := by
      simp only [pasoVelocidad, if_neg hne]
      cases hg : a.gap_adelante with
      | none => simp
      | some g =>
          by_cases h1 : g < (GAP_MIN : GapT)
          · simp only [if_pos h1]
            by_cases h2 : a.velocidad_actual - 20 < a.vel_min_actual
            · simp [if_pos h2]
            · simp [if_neg h2]
          · simp only [if_neg h1]
            by_cases h3 : (GAP_BUFFER : GapT) ≤ g
            · simp [if_pos h3]
            · simp [if_neg h3]
    refine ⟨hstep, ?_, ?_,
      fun h => pasoVelocidad_mem_vuelo a l res hmem h,
      fun h => pasoVelocidad_mem_atras a l res hmem h⟩
    · rcases hstep with h | h <;> rw [h] <;> intro hc <;> cases hc
    · rcases hstep with h | h <;> rw [h] <;> intro hc <;> cases hc

/-- Witness for C10: an `aterrizado` aircraft in the queue is resurrected
to `en_vuelo` by the pass and returned in the flying list. -/
theorem velocidades_estados_no_preservados_witness :
    (pasoVelocidad (avionDemo 50 250 Estado.aterrizado none)).1.estado
        = Estado.en_vuelo ∧
    (pasoVelocidad (avionDemo 50 250 Estado.aterrizado none)).1 ∈
      (actualizar_velocidades [avionDemo 50 250 Estado.aterrizado none]
        inicializar_resultados).1 := by
  have h := velocidades_estados_no_preservados
    [avionDemo 50 250 Estado.aterrizado none] inicializar_resultados
    (avionDemo 50 250 Estado.aterrizado none) (List.mem_singleton.mpr rfl)
  exact ⟨by decide, (h.2 (by decide)).2.2.2.1 (by decide)⟩

/-! ### Per-minute stepping (`avanzar_aviones_un_minuto`) -/

/-- The body of the `avanzar_aviones_un_minuto` loop for one aircraft:
flying aircraft delegate to `avanzar_minuto`; `marcha_atras` aircraft move
away from AEP by `VEL_MARCHA_ATRAS/60*dt`, divert past the entry range
(counter incremented), and log a snapshot; terminal aircraft are skipped. -/
def pasoAvance (minuto : ℤ) (dt : ℚ) (a : Avion) (res : Resultados) :
    Avion × Resultados :=
  if a.estado = Estado.en_vuelo then (a.avanzar_minuto minuto dt, res)
  else if a.estado = Estado.marcha_atras then
    let pos1 := a.posicion + VEL_MARCHA_ATRAS / 60 * dt
    if pos1 > DISTANCIA_INICIAL then
      (({ a with
          posicion := pos1
          estado := Estado.desviado
          velocidad_actual := 0 } : Avion).registrar_estado minuto none,
        { res with desviados := res.desviados + 1 })
    else
      (({ a with posicion := pos1 } : Avion).registrar_estado minuto none, res)
  else (a, res)

/-- `avanzar_aviones_un_minuto` over the active list. -/
def avanzar_aviones_un_minuto :
    List Avion → ℤ → ℚ → Resultados → List Avion × Resultados
  | [], _, _, res => ([], res)
  | a :: rest, minuto, dt, res =>
      let p := pasoAvance minuto dt a res
      let r := avanzar_aviones_un_minuto rest minuto dt p.2
      (p.1 :: r.1, r.2)

/-- **C4.** One call of `avanzar_minuto` keeps the position nonnegative;
while flying with nonnegative speed it does not increase the position;
once `aterrizado` or `desviado` it leaves position and state unchanged and
appends exactly one history snapshot reporting speed 0. -/
theorem avanzar_minuto_invariantes (a : Avion) (minuto : ℤ) (dt : ℚ)
    (hpos : 0 ≤ a.posicion) :
    (a.estado = Estado.en_vuelo → 0 ≤ dt →
      0 ≤ (a.avanzar_minuto minuto dt).posicion) ∧
    (a.estado ≠ Estado.en_vuelo → (a.avanzar_minuto minuto dt).posicion = a.posicion) ∧
    (a.estado = Estado.en_vuelo → 0 ≤ a.velocidad_actual → 0 ≤ dt →
      (a.avanzar_minuto minuto dt).posicion ≤ a.posicion) ∧
    (a.estado = Estado.aterrizado ∨ a.estado = Estado.desviado →
      (a.avanzar_minuto minuto dt).posicion = a.posicion ∧
      (a.avanzar_minuto minuto dt).estado = a.estado ∧
      (a.avanzar_minuto minuto dt).velocidad_actual = a.velocidad_actual ∧
      (a.avanzar_minuto minuto dt).historial_posiciones =
        a.historial_posiciones ++ [a.snapshot minuto 0]) := by
  by_cases hterm : a.estado = Estado.aterrizado ∨ a.estado = Estado.desviado
  · have hne : a.estado ≠ Estado.en_vuelo := by
      rcases hterm with h | h <;> rw [h] <;> intro hc <;> cases hc
    have hstep : a.avanzar_minuto minuto dt = a.registrar_estado minuto (some 0) := by
      simp [Avion.avanzar_minuto, if_pos hterm]
    refine ⟨fun hf => absurd hf hne, fun _ => by rw [hstep]; rfl,
      fun hf => absurd hf hne, fun _ => ?_⟩
    rw [hstep]
    exact ⟨rfl, rfl, rfl, by simp [Avion.registrar_estado]⟩
  · by_cases hma : a.estado = Estado.marcha_atras
    · have hne : a.estado ≠ Estado.en_vuelo := by
        rw [hma]; intro hc; cases hc
      have hstep : a.avanzar_minuto minuto dt = a.registrar_estado minuto none := by
        simp [Avion.avanzar_minuto, if_neg hterm, if_pos hma]
      exact ⟨fun hf => absurd hf hne, fun _ => by rw [hstep]; rfl,
        fun hf => absurd hf hne, fun ht => absurd ht hterm⟩
    · have hfly : a.estado = Estado.en_vuelo := by
        cases h : a.estado with
        | en_vuelo => rfl
        | marcha_atras => exact absurd h hma
        | aterrizado => exact absurd (Or.inl h) hterm
        | desviado => exact absurd (Or.inr h) hterm
      refine ⟨fun _ hdt => ?_, fun hne => absurd hfly hne, fun _ hvel hdt => ?_,
        fun ht => absurd ht hterm⟩
      · simp only [Avion.avanzar_minuto, if_neg hterm, if_neg hma]
        by_cases hz : max 0 (a.posicion - a.velocidad_actual / 60 * dt) ≤ 0
        · rw [if_pos hz]; rfl
        · rw [if_neg hz]
          simp only [Avion.registrar_estado]
          exact le_max_left _ _
      · simp only [Avion.avanzar_minuto, if_neg hterm, if_neg hma]
        have havance : 0 ≤ a.velocidad_actual / 60 * dt :=
          mul_nonneg (div_nonneg hvel (by norm_num)) hdt
        by_cases hz : max 0 (a.posicion - a.velocidad_actual / 60 * dt) ≤ 0
        · rw [if_pos hz]
          simpa [Avion.registrar_estado] using hpos
        · rw [if_neg hz]
          simp only [Avion.registrar_estado]
          exact max_le hpos (by linarith)

/-- Witness for C4 at a flying and at a landed aircraft. -/
theorem avanzar_minuto_invariantes_witness :
    0 ≤ (Avion.avanzar_minuto (avionDemo 50 250 Estado.en_vuelo none) 0 1).posicion ∧
    (Avion.avanzar_minuto (avionDemo 50 250 Estado.en_vuelo none) 0 1).posicion ≤ 50 ∧
    (Avion.avanzar_minuto (avionDemo 20 0 Estado.aterrizado none) 3 1).posicion = 20 ∧
    (Avion.avanzar_minuto (avionDemo 20 0 Estado.aterrizado none) 3 1).historial_posiciones
      = [(avionDemo 20 0 Estado.aterrizado none).snapshot 3 0] := by
  have h1 := avanzar_minuto_invariantes (avionDemo 50 250 Estado.en_vuelo none) 0 1
    (by norm_num [avionDemo])
  have h2 := avanzar_minuto_invariantes (avionDemo 20 0 Estado.aterrizado none) 3 1
    (by norm_num [avionDemo])
  refine ⟨h1.1 rfl (by norm_num), ?_, ?_, ?_⟩
  · have := h1.2.2.1 rfl (by norm_num [avionDemo]) (by norm_num)
    simpa [avionDemo] using this
  · have := (h2.2.2.2 (Or.inl rfl)).1
    simpa [avionDemo] using this
  · have := (h2.2.2.2 (Or.inl rfl)).2.2.2
    simpa [avionDemo] using this

/-- **C5.** For a `marcha_atras` aircraft, each tick of
`avanzar_aviones_un_minuto` adds exactly `VEL_MARCHA_ATRAS/60*dt` nm to the
position; if the new position exceeds `DISTANCIA_INICIAL` the aircraft
becomes `desviado` with speed 0 and the diverted counter is incremented,
otherwise it stays `marcha_atras` with speed and counters unchanged. -/
theorem marcha_atras_avance_y_desvio (a : Avion) (minuto : ℤ) (dt : ℚ)
    (res : Resultados) (hma : a.estado = Estado.marcha_atras) :
    (pasoAvance minuto dt a res).1.posicion
        = a.posicion + VEL_MARCHA_ATRAS / 60 * dt ∧
    (a.posicion + VEL_MARCHA_ATRAS / 60 * dt > DISTANCIA_INICIAL →
      (pasoAvance minuto dt a res).1.estado = Estado.desviado ∧
      (pasoAvance minuto dt a res).1.velocidad_actual = 0 ∧
      (pasoAvance minuto dt a res).2.desviados = res.desviados + 1) ∧
    (¬ a.posicion + VEL_MARCHA_ATRAS / 60 * dt > DISTANCIA_INICIAL →
      (pasoAvance minuto dt a res).1.estado = Estado.marcha_atras ∧
      (pasoAvance minuto dt a res).1.velocidad_actual = a.velocidad_actual ∧
      (pasoAvance minuto dt a res).2 = res) ∧
    avanzar_aviones_un_minuto [a] minuto dt res =
      ([(pasoAvance minuto dt a res).1], (pasoAvance minuto dt a res).2) := by
  have hne : a.estado ≠ Estado.en_vuelo := by
    rw [hma]; intro hc; cases hc
  by_cases hover : a.posicion + VEL_MARCHA_ATRAS / 60 * dt > DISTANCIA_INICIAL
  · have hstep : pasoAvance minuto dt a res =
        (({ a with
            posicion := a.posicion + VEL_MARCHA_ATRAS / 60 * dt
            estado := Estado.desviado
            velocidad_actual := 0 } : Avion).registrar_estado minuto none,
          { res with desviados := res.desviados + 1 }) := by
      simp only [pasoAvance, if_neg hne, if_pos hma]
      rw [if_pos hover]
    refine ⟨by rw [hstep]; rfl, fun _ => ⟨by rw [hstep]; rfl, by rw [hstep]; rfl,
      by rw [hstep]⟩, fun hc => absurd hover hc, ?_⟩
    simp [avanzar_aviones_un_minuto]
  · have hstep : pasoAvance minuto dt a res =
        (({ a with
            posicion := a.posicion + VEL_MARCHA_ATRAS / 60 * dt } : Avion).registrar_estado
          minuto none, res) := by
      simp only [pasoAvance, if_neg hne, if_pos hma]
      rw [if_neg hover]
    refine ⟨by rw [hstep]; rfl, fun hc => absurd hc hover,
      fun _ => ⟨?_, by rw [hstep]; rfl, by rw [hstep]⟩, ?_⟩
    · rw [hstep]
      simpa [Avion.registrar_estado] using hma
    · simp [avanzar_aviones_un_minuto]

/-- Witness for C5, the spec scenario: a reversing aircraft at 95 nm first
climbs to 98⅓ nm (still `marcha_atras`); from 98⅓ nm the next tick reaches
101⅔ nm > 100, so it becomes `desviado` with speed 0 and the counter is
incremented. -/
theorem marcha_atras_avance_y_desvio_witness :
    (pasoAvance 0 1 (avionDemo 95 (-200) Estado.marcha_atras none)
      inicializar_resultados).1.posicion = 295/3 ∧
    (pasoAvance 0 1 (avionDemo 95 (-200) Estado.marcha_atras none)
      inicializar_resultados).1.estado = Estado.marcha_atras ∧
    (pasoAvance 1 1 (avionDemo (295/3) (-200) Estado.marcha_atras none)
      inicializar_resultados).1.posicion = 305/3 ∧
    (pasoAvance 1 1 (avionDemo (295/3) (-200) Estado.marcha_atras none)
      inicializar_resultados).1.estado = Estado.desviado ∧
    (pasoAvance 1 1 (avionDemo (295/3) (-200) Estado.marcha_atras none)
      inicializar_resultados).1.velocidad_actual = 0 ∧
    (pasoAvance 1 1 (avionDemo (295/3) (-200) Estado.marcha_atras none)
      inicializar_resultados).2.desviados = 1 := by
  have h1 := marcha_atras_avance_y_desvio (avionDemo 95 (-200) Estado.marcha_atras none)
    0 1 inicializar_resultados rfl
  have h2 := marcha_atras_avance_y_desvio (avionDemo (295/3) (-200) Estado.marcha_atras none)
    1 1 inicializar_resultados rfl
  have hno : ¬ (avionDemo 95 (-200) Estado.marcha_atras none).posicion
      + VEL_MARCHA_ATRAS / 60 * 1 > DISTANCIA_INICIAL := by
    norm_num [avionDemo, VEL_MARCHA_ATRAS, DISTANCIA_INICIAL]
  have hsi : (avionDemo (295/3) (-200) Estado.marcha_atras none).posicion
      + VEL_MARCHA_ATRAS / 60 * 1 > DISTANCIA_INICIAL := by
    norm_num [avionDemo, VEL_MARCHA_ATRAS, DISTANCIA_INICIAL]
  refine ⟨?_, (h1.2.2.1 hno).1, ?_, (h2.2.1 hsi).1, (h2.2.1 hsi).2.1,
    (h2.2.1 hsi).2.2⟩
  · rw [h1.1]
    norm_num [avionDemo, VEL_MARCHA_ATRAS]
  · rw [h2.1]
    norm_num [avionDemo, VEL_MARCHA_ATRAS]

/-! ### Gap computation (`Fila.actualizar_gaps`) -/

/-- The sort key of `actualizar_gaps`: ascending `(posicion, num)`. -/
abbrev claveGaps (a b : Avion) : Prop :=
  a.posicion < b.posicion ∨ (a.posicion = b.posicion ∧ a.num ≤ b.num)

/-- The queue sorted by `(posicion, num)` (Python's stable `sort`). -/
def ordenarPorPosNum (l : List Avion) : List Avion :=
  l.insertionSort claveGaps

/-- Index-aware map, the shape of the `enumerate` loop of the source. -/
def mapConIndice {α β : Type} (f : ℕ → α → β) : ℕ → List α → List β
  | _, [] => []
  | i, x :: xs => f i x :: mapConIndice f (i + 1) xs

theorem mapConIndice_get? {α β : Type} (f : ℕ → α → β) :
    ∀ (l : List α) (k i : ℕ),
      (mapConIndice f k l).get? i = (l.get? i).map (f (k + i)) := by
  intro l
  induction l with
  | nil => intro k i; simp [mapConIndice]
  | cons x xs ih =>
      intro k i
      cases i with
      | zero => simp [mapConIndice]
      | succ n =>
          simp only [mapConIndice, List.get?_cons_succ]
          have hk : k + (n + 1) = (k + 1) + n := by omega
          rw [hk, ih (k + 1) n]

theorem mapConIndice_length {α β : Type} (f : ℕ → α → β) :
    ∀ (l : List α) (k : ℕ), (mapConIndice f k l).length = l.length := by
  intro l
  induction l with
  | nil => intro k; rfl
  | cons x xs ih => intro k; simp [mapConIndice, ih]

/-- The per-aircraft body of the `actualizar_gaps` loop: set
`lead_id`/`gap_adelante` from the neighbour at `i-1` (leader's speed,
infinite when it is ≤ 0) and `tail_id`/`gap_atras` from the neighbour at
`i+1` (own speed, infinite when it is ≤ 0). -/
def ponerGaps (s : List Avion) (n i : ℕ) (a : Avion) : Avion :=
  let a1 :=
    if i = 0 then { a with lead_id := none, gap_adelante := none }
    else
      match s.get? (i - 1) with
      | none => a
      | some lead =>
          { a with
              lead_id := some lead.num
              gap_adelante := some (if 0 < lead.velocidad_actual
                then (((a.posicion - lead.posicion) / lead.velocidad_actual * 60 : ℚ) : GapT)
                else (⊤ : GapT)) }
  if i = n - 1 then { a1 with tail_id := none, gap_atras := none }
  else
    match s.get? (i + 1) with
    | none => a1
    | some tail =>
        { a1 with
            tail_id := some tail.num
            gap_atras := some (if 0 < a1.velocidad_actual
              then (((tail.posicion - a1.posicion) / a1.velocidad_actual * 60 : ℚ) : GapT)
              else (⊤ : GapT)) }

/-- `Fila.actualizar_gaps`: sort by `(posicion, num)`, then recompute every
aircraft's neighbour ids and gaps. -/
def actualizar_gaps (l : List Avion) : List Avion :=
  mapConIndice (ponerGaps (ordenarPorPosNum l) (ordenarPorPosNum l).length) 0
    (ordenarPorPosNum l)

theorem actualizar_gaps_get (l : List Avion) (i : ℕ) :
    (actualizar_gaps l).get? i =
      ((ordenarPorPosNum l).get? i).map
        (ponerGaps (ordenarPorPosNum l) (ordenarPorPosNum l).length i) := by
  simpa using mapConIndice_get? _ (ordenarPorPosNum l) 0 i

theorem ponerGaps_lead_cero (s : List Avion) (n : ℕ) (a : Avion) :
    (ponerGaps s n 0 a).lead_id = none ∧ (ponerGaps s n 0 a).gap_adelante = none := by
  unfold ponerGaps
  simp only [if_pos rfl]
  by_cases h : 0 = n - 1
  · simp [h]
  · simp only [if_neg h]
    cases htail : s.get? 1 <;> simp

theorem ponerGaps_lead_succ (s : List Avion) (n j : ℕ) (a lead : Avion)
    (hlead : s.get? j = some lead) :
    (ponerGaps s n (j + 1) a).lead_id = some lead.num ∧
    (ponerGaps s n (j + 1) a).gap_adelante = some (if 0 < lead.velocidad_actual
      then (((a.posicion - lead.posicion) / lead.velocidad_actual * 60 : ℚ) : GapT)
      else (⊤ : GapT)) := by
  unfold ponerGaps
  have h0 : ¬ (j + 1 = 0) := by omega
  simp only [if_neg h0, Nat.add_sub_cancel, hlead]
  by_cases h : j + 1 = n - 1
  · simp [h]
  · simp only [if_neg h]
    cases htail : s.get? (j + 1 + 1) <;> simp

theorem ponerGaps_tail_ultimo (s : List Avion) (n i : ℕ) (a : Avion)
    (h : i = n - 1) :
    (ponerGaps s n i a).tail_id = none ∧ (ponerGaps s n i a).gap_atras = none := by
  unfold ponerGaps
  simp [h]

theorem ponerGaps_tail_medio (s : List Avion) (n i : ℕ) (a tail : Avion)
    (hne : ¬ i = n - 1) (htail : s.get? (i + 1) = some tail) :
    (ponerGaps s n i a).tail_id = some tail.num ∧
    (ponerGaps s n i a).gap_atras = some (if 0 < a.velocidad_actual
      then (((tail.posicion - a.posicion) / a.velocidad_actual * 60 : ℚ) : GapT)
      else (⊤ : GapT)) := by
  unfold ponerGaps
  simp only [if_neg hne, htail]
  by_cases h0 : i = 0
  · simp [h0]
  · simp only [if_neg h0]
    cases hlead : s.get? (i - 1) <;> simp

/-- **C3.** After `actualizar_gaps`, over the queue sorted ascending by
`(posicion, num)`: the first aircraft has no leader and no `gap_adelante`,
the last has no tail and no `gap_atras`; aircraft `i > 0` gets
`gap_adelante = (pos[i] − pos[i−1]) / vel[i−1] * 60` at the leader's speed
(infinite when that speed is ≤ 0), and aircraft `i < n−1` gets
`gap_atras = (pos[i+1] − pos[i]) / vel[i] * 60` at its own speed (infinite
when its own speed is ≤ 0). -/
theorem gaps_formulas (l : List Avion) (i : ℕ) (a : Avion)
    (ha : (ordenarPorPosNum l).get? i = some a) :
    (actualizar_gaps l).length = (ordenarPorPosNum l).length ∧
    (i = 0 → ∃ b, (actualizar_gaps l).get? i = some b ∧
      b.lead_id = none ∧ b.gap_adelante = none) ∧
    (∀ j lead, i = j + 1 → (ordenarPorPosNum l).get? j = some lead →
      ∃ b, (actualizar_gaps l).get? i = some b ∧ b.lead_id = some lead.num ∧
        b.gap_adelante = some (if 0 < lead.velocidad_actual
          then (((a.posicion - lead.posicion) / lead.velocidad_actual * 60 : ℚ) : GapT)
          else (⊤ : GapT))) ∧
    (i = (ordenarPorPosNum l).length - 1 →
      ∃ b, (actualizar_gaps l).get? i = some b ∧
        b.tail_id = none ∧ b.gap_atras = none) ∧
    (∀ tail, (ordenarPorPosNum l).get? (i + 1) = some tail →
      ∃ b, (actualizar_gaps l).get? i = some b ∧ b.tail_id = some tail.num ∧
        b.gap_atras = some (if 0 < a.velocidad_actual
          then (((tail.posicion - a.posicion) / a.velocidad_actual * 60 : ℚ) : GapT)
          else (⊤ : GapT))) := by
  have hget : (actualizar_gaps l).get? i =
      some (ponerGaps (ordenarPorPosNum l) (ordenarPorPosNum l).length i a) := by
    rw [actualizar_gaps_get, ha]
    rfl
  refine ⟨?_, ?_, ?_, ?_, ?_⟩
  · simpa [actualizar_gaps] using
      mapConIndice_length _ (ordenarPorPosNum l) 0
  · rintro rfl
    exact ⟨_, hget, ponerGaps_lead_cero _ _ a⟩
  · rintro j lead rfl hlead
    exact ⟨_, hget, ponerGaps_lead_succ _ _ j a lead hlead⟩
  · rintro h
    exact ⟨_, hget, ponerGaps_tail_ultimo _ _ i a h⟩
  · intro tail htail
    have hlt : i + 1 < (ordenarPorPosNum l).length := by
      rcases List.get?_eq_some.mp htail with ⟨h, -⟩
      exact h
    have hne : ¬ i = (ordenarPorPosNum l).length - 1 := by omega
    exact ⟨_, hget, ponerGaps_tail_medio _ _ i a tail hne htail⟩

/-- A second demo aircraft constructor with a chosen id, flying. -/
def avionDemoN (num : ℕ) (pos vel : ℚ) : Avion :=
  { num := num, tiempo_radar := 0, posicion := pos, estado := Estado.en_vuelo,
    velocidad_actual := vel, gap_adelante := none, lead_id := none,
    gap_atras := none, tail_id := none, atraso := 0, historial_posiciones := [] }

/-- Witness for C3 on a two-aircraft queue, exhibiting the edge `None`s,
a leader with speed 0 giving an infinite `gap_adelante`, and an own speed
of 0 giving an infinite `gap_atras`. -/
theorem gaps_formulas_witness :
    ∃ b0 b1,
      (actualizar_gaps [avionDemoN 1 10 0, avionDemoN 2 20 300]).get? 0 = some b0 ∧
      (actualizar_gaps [avionDemoN 1 10 0, avionDemoN 2 20 300]).get? 1 = some b1 ∧
      b0.lead_id = none ∧ b0.gap_adelante = none ∧
      b0.tail_id = some 2 ∧ b0.gap_atras = some (⊤ : GapT) ∧
      b1.lead_id = some 1 ∧ b1.gap_adelante = some (⊤ : GapT) ∧
      b1.tail_id = none ∧ b1.gap_atras = none := by
  have hs : ordenarPorPosNum [avionDemoN 1 10 0, avionDemoN 2 20 300]
      = [avionDemoN 1 10 0, avionDemoN 2 20 300] := by decide
  have h0 := gaps_formulas [avionDemoN 1 10 0, avionDemoN 2 20 300] 0
    (avionDemoN 1 10 0) (by rw [hs]; rfl)
  have h1 := gaps_formulas [avionDemoN 1 10 0, avionDemoN 2 20 300] 1
    (avionDemoN 2 20 300) (by rw [hs]; rfl)
  obtain ⟨b0, hb0, hl0, hg0⟩ := h0.2.1 rfl
  obtain ⟨b0', hb0', ht0, hga0⟩ :=
    h0.2.2.2.2 (avionDemoN 2 20 300) (by rw [hs]; rfl)
  obtain ⟨b1, hb1, hl1, hg1⟩ :=
    h1.2.2.1 0 (avionDemoN 1 10 0) rfl (by rw [hs]; rfl)
  obtain ⟨b1', hb1', ht1, hga1⟩ := h1.2.2.2.1 (by rw [hs]; rfl)
  rw [hb0] at hb0'
  rw [hb1] at hb1'
  have he0 : b0 = b0' := Option.some.inj hb0'
  have he1 : b1 = b1' := Option.some.inj hb1'
  subst he0
  subst he1
  refine ⟨b0, b1, hb0, hb1, hl0, hg0, ht0, ?_, hl1, ?_, ht1, hga1⟩
  · rw [hga0]
    simp [avionDemoN]
  · rw [hg1]
    simp [avionDemoN]

/-! ### Wind disruption (`cerrar_AEP`) -/

/-- The minutes-to-threshold estimate of the wind check, exactly as the
source computes it (note: no guard on `velocidad_actual`; a zero speed is
a `ZeroDivisionError` in Python, modelled here by `ℚ` division). -/
def tiempoEstimadoAEP (a : Avion) : ℚ := a.posicion / a.velocidad_actual * 60

/-- The wind-check guard of `cerrar_AEP`: a flying aircraft whose estimate
is at most one minute is subjected to the interruption draw. -/
def elegibleViento (a : Avion) : Prop :=
  a.estado = Estado.en_vuelo ∧ tiempoEstimadoAEP a ≤ 1

instance (a : Avion) : Decidable (elegibleViento a) := by
  unfold elegibleViento
  infer_instance

/-- `cerrar_AEP`: walk the list with the stream of uniform draws (one draw
is consumed per eligible aircraft); below `prob` the aircraft is forced to
`marcha_atras` at the reverse rate. -/
def cerrar_AEP (prob : ℚ) (draws : ℕ → ℚ) : List Avion → ℕ → List Avion
  | [], _ => []
  | a :: rest, k =>
      if elegibleViento a then
        (if draws k < prob then
          { a with
              estado := Estado.marcha_atras
              velocidad_actual := -VEL_MARCHA_ATRAS }
        else a) :: cerrar_AEP prob draws rest (k + 1)
      else a :: cerrar_AEP prob draws rest k

/-- **C7 (counterexample).** The claim — in `cerrar_AEP` a zero-or-negative
speed is treated as infinite time to threshold, so such an aircraft never
satisfies the ≤ 1-minute wind condition — is false: a flying aircraft at
10 nm with speed −200 kt gets the estimate −3 min ≤ 1 and is interrupted
(forced to `marcha_atras`) when the draw is below the probability. -/
theorem viento_velocidad_negativa_contraejemplo :
    ¬ (∀ a : Avion, a.estado = Estado.en_vuelo → a.velocidad_actual ≤ 0 →
        ¬ elegibleViento a) := by
  intro h
  have hc := h (avionDemoN 3 10 (-200)) rfl (by norm_num [avionDemoN])
  apply hc
  constructor
  · rfl
  · norm_num [tiempoEstimadoAEP, avionDemoN]

/-- **C7 (amended).** The zero-or-negative-speed guard holds in
`actualizar_gaps` (leader speed ≤ 0 makes `gap_adelante` infinite; own
speed ≤ 0 makes `gap_atras` infinite), but `cerrar_AEP` has no such guard:
a flying aircraft with negative speed and nonnegative position has a
nonpositive estimate, hence satisfies the ≤ 1 wind-check condition and is
forced to `marcha_atras` whenever its draw is below the probability (and a
zero speed is an unguarded division in the source). -/
theorem gaps_infinito_y_viento_sin_guarda (l : List Avion) (i : ℕ)
    (a lead : Avion) (hlead : (ordenarPorPosNum l).get? i = some lead)
    (hi : (ordenarPorPosNum l).get? (i + 1) = some a) :
    (lead.velocidad_actual ≤ 0 →
      ∃ b, (actualizar_gaps l).get? (i + 1) = some b ∧
        b.gap_adelante = some (⊤ : GapT)) ∧
    (lead.velocidad_actual ≤ 0 →
      ∃ b, (actualizar_gaps l).get? i = some b ∧
        b.gap_atras = some (⊤ : GapT)) ∧
    (∀ c : Avion, c.estado = Estado.en_vuelo → c.velocidad_actual < 0 →
      0 ≤ c.posicion → elegibleViento c) ∧
    (∀ c : Avion, c.estado = Estado.en_vuelo → c.velocidad_actual < 0 →
      0 ≤ c.posicion → ∀ (prob : ℚ) (draws : ℕ → ℚ) (k : ℕ), draws k < prob →
        (cerrar_AEP prob draws [c] k).map Avion.estado = [Estado.marcha_atras]) := by
  refine ⟨?_, ?_, ?_, ?_⟩
  · intro hv
    obtain ⟨-, hgap⟩ := ponerGaps_lead_succ (ordenarPorPosNum l)
      (ordenarPorPosNum l).length i a lead hlead
    refine ⟨ponerGaps (ordenarPorPosNum l) (ordenarPorPosNum l).length (i + 1) a,
      by rw [actualizar_gaps_get, hi]; rfl, ?_⟩
    rw [hgap, if_neg (not_lt.mpr hv)]
  · intro hv
    have hlt : i + 1 < (ordenarPorPosNum l).length := by
      rcases List.get?_eq_some.mp hi with ⟨h, -⟩
      exact h
    have hne : ¬ i = (ordenarPorPosNum l).length - 1 := by omega
    obtain ⟨-, hgap⟩ := ponerGaps_tail_medio (ordenarPorPosNum l)
      (ordenarPorPosNum l).length i lead a hne hi
    refine ⟨ponerGaps (ordenarPorPosNum l) (ordenarPorPosNum l).length i lead,
      by rw [actualizar_gaps_get, hlead]; rfl, ?_⟩
    rw [hgap, if_neg (not_lt.mpr hv)]
  · intro c hfly hneg hpos
    refine ⟨hfly, ?_⟩
    unfold tiempoEstimadoAEP
    have hdiv : c.posicion / c.velocidad_actual ≤ 0 :=
      div_nonpos_of_nonneg_of_nonpos hpos (le_of_lt hneg)
    linarith
  · intro c hfly hneg hpos prob draws k hdraw
    have hel : elegibleViento c := by
      refine ⟨hfly, ?_⟩
      unfold tiempoEstimadoAEP
      have hdiv : c.posicion / c.velocidad_actual ≤ 0 :=
        div_nonpos_of_nonneg_of_nonpos hpos (le_of_lt hneg)
      linarith
    simp [cerrar_AEP, if_pos hel, if_pos hdraw]

/-- Witness for the amended C7 at concrete inputs. -/
theorem gaps_infinito_y_viento_sin_guarda_witness :
    (∃ b, (actualizar_gaps [avionDemoN 1 10 0, avionDemoN 2 20 300]).get? 1
        = some b ∧ b.gap_adelante = some (⊤ : GapT)) ∧
    elegibleViento (avionDemoN 3 10 (-200)) ∧
    (cerrar_AEP (1/10) (fun _ => 0) [avionDemoN 3 10 (-200)] 0).map Avion.estado
      = [Estado.marcha_atras] := by
  have hs : ordenarPorPosNum [avionDemoN 1 10 0, avionDemoN 2 20 300]
      = [avionDemoN 1 10 0, avionDemoN 2 20 300] := by decide
  have h := gaps_infinito_y_viento_sin_guarda
    [avionDemoN 1 10 0, avionDemoN 2 20 300] 0
    (avionDemoN 2 20 300) (avionDemoN 1 10 0)
    (by rw [hs]; rfl) (by rw [hs]; rfl)
  refine ⟨h.1 (by norm_num [avionDemoN]), ?_, ?_⟩
  · exact h.2.2.1 (avionDemoN 3 10 (-200)) rfl (by norm_num [avionDemoN])
      (by norm_num [avionDemoN])
  · exact h.2.2.2 (avionDemoN 3 10 (-200)) rfl (by norm_num [avionDemoN])
      (by norm_num [avionDemoN]) (1/10) (fun _ => 0) 0 (by norm_num)

/-! ### Expected landing time and the feasibility filter -/

/-- The loop of `calcular_tiempo_esperado` with the remaining iteration
budget explicit: the source runs `while d > 0 and it < 100000`, adding one
minute per step at the band maximum; a nonpositive advance returns the
float `inf` (modelled by `⊤`); when the budget runs out the accumulated
count is returned. -/
def cteGo : ℕ → ℚ → ℕ → WithTop ℕ
  | 0, _, acc => (acc : WithTop ℕ)
  | fuel + 1, d, acc =>
      if 0 < d then
        if (velocidad_permitida d).1 / 60 ≤ 0 then (⊤ : WithTop ℕ)
        else cteGo fuel (d - (velocidad_permitida d).1 / 60) (acc + 1)
      else (acc : WithTop ℕ)

/-- `calcular_tiempo_esperado` from a given distance. -/
def calcular_tiempo_esperado (d : ℚ) : WithTop ℕ := cteGo 100000 d 0

/-- `Avion.calcular_tiempo_esperado` with the default argument. -/
def Avion.calcular_tiempo_esperado (a : Avion) : WithTop ℕ :=
  cteGo 100000 a.posicion 0

theorem velocidad_permitida_max_ge (d : ℚ) : 150 ≤ (velocidad_permitida d).1 := by
  unfold velocidad_permitida
  split_ifs <;> norm_num

theorem cteGo_ne_top : ∀ (fuel : ℕ) (d : ℚ) (acc : ℕ),
    cteGo fuel d acc ≠ (⊤ : WithTop ℕ) := by
  intro fuel
  induction fuel with
  | zero => intro d acc; exact WithTop.coe_ne_top
  | succ n ih =>
      intro d acc
      by_cases hd : 0 < d
      · have hav : ¬ (velocidad_permitida d).1 / 60 ≤ 0 := by
          have := velocidad_permitida_max_ge d
          intro hc
          nlinarith
        simp only [cteGo, if_pos hd, if_neg hav]
        exact ih _ _
      · simp only [cteGo, if_neg hd]
        exact WithTop.coe_ne_top

theorem cteGo_far : ∀ (fuel : ℕ) (d : ℚ) (acc : ℕ),
    (100 : ℚ) + fuel * (25/3) < d →
    cteGo fuel d acc = ((acc + fuel : ℕ) : WithTop ℕ) := by
  intro fuel
  induction fuel with
  | zero => intro d acc _; simp [cteGo]
  | succ n ih =>
      intro d acc hfar
      have hd : (0 : ℚ) < d := by
        have : (0:ℚ) ≤ (n + 1 : ℕ) * (25/3) := by positivity
        push_cast at hfar ⊢
        nlinarith
      have h100 : (100 : ℚ) < d := by
        have : (0:ℚ) ≤ (n + 1 : ℕ) * (25/3) := by positivity
        push_cast at hfar ⊢
        nlinarith
      have hvp : velocidad_permitida d = (500, 300) := by
        unfold velocidad_permitida
        rw [if_pos h100]
      have hav : ¬ (velocidad_permitida d).1 / 60 ≤ 0 := by
        rw [hvp]; norm_num
      simp only [cteGo, if_pos hd, if_neg hav]
      rw [hvp]
      have hrec : (100 : ℚ) + n * (25/3) < d - (500 : ℚ) / 60 := by
        push_cast at hfar ⊢
        nlinarith
      rw [ih _ (acc + 1) hrec]
      congr 1
      omega

/-- **C8 (counterexample).** The claim that `calcular_tiempo_esperado`
returns "infinite" when it fails to converge within its 100000-iteration
bound is false: started from 1 000 000 nm the loop exhausts the bound
with distance still positive and returns the finite count 100000, not
infinity (the `inf` return only guards a nonpositive advance). -/
theorem tiempo_esperado_agotado_contraejemplo :
    calcular_tiempo_esperado 1000000 = ((100000 : ℕ) : WithTop ℕ) ∧
    calcular_tiempo_esperado 1000000 ≠ (⊤ : WithTop ℕ) := by
  have h := cteGo_far 100000 1000000 0 (by norm_num)
  refine ⟨?_, ?_⟩
  · unfold calcular_tiempo_esperado
    rw [h]
  · unfold calcular_tiempo_esperado
    rw [h]
    exact WithTop.coe_ne_top

/-- The sort of `obtener_todos` (key: `posicion` only). -/
abbrev clavePos (a b : Avion) : Prop := a.posicion ≤ b.posicion

/-- `ordenarPorPos`: Python's `Fila.ordenar`. -/
def ordenarPorPos (l : List Avion) : List Avion :=
  l.insertionSort clavePos

/-- `minuto + calcular_tiempo_esperado()`, with `inf` propagating. -/
def tiempoLlegada (minuto : ℤ) (a : Avion) : WithTop ℚ :=
  WithTop.map (fun n : ℕ => (minuto : ℚ) + (n : ℚ)) a.calcular_tiempo_esperado

/-- The admission condition of `filtrar_aviones_a_tiempo`:
`tiempo_llegada_min <= duracion_horas * 60`. -/
abbrev pasoFiltro (minuto : ℤ) (duracionHoras : ℚ) (a : Avion) : Prop :=
  tiempoLlegada minuto a ≤ ((duracionHoras * 60 : ℚ) : WithTop ℚ)

/-- The loop of `filtrar_aviones_a_tiempo` over the (sorted) list: returns
(admitted aircraft, rejected-and-marked aircraft, updated counters). -/
def filtrarGo : List Avion → ℤ → ℚ → Resultados → List Avion × List Avion × Resultados
  | [], _, _, res => ([], [], res)
  | a :: rest, minuto, dur, res =>
      if pasoFiltro minuto dur a then
        let r := filtrarGo rest minuto dur res
        (a :: r.1, r.2.1, r.2.2)
      else
        let r := filtrarGo rest minuto dur
          { res with desviados := res.desviados + 1 }
        (r.1, a.marcar_desviado :: r.2.1, r.2.2)

/-- `filtrar_aviones_a_tiempo`: iterate over `obtener_todos()` (the queue
sorted by position). -/
def filtrar_aviones_a_tiempo (l : List Avion) (minuto : ℤ) (dur : ℚ)
    (res : Resultados) : List Avion × List Avion × Resultados :=
  filtrarGo (ordenarPorPos l) minuto dur res

theorem filtrarGo_mem_valido (a : Avion) :
    ∀ (s : List Avion) (minuto : ℤ) (dur : ℚ) (res : Resultados), a ∈ s →
      pasoFiltro minuto dur a → a ∈ (filtrarGo s minuto dur res).1 := by
  intro s
  induction s with
  | nil => intro _ _ _ ha _; cases ha
  | cons b rest ih =>
      intro minuto dur res ha hok
      rcases List.mem_cons.mp ha with rfl | ha'
      · simp only [filtrarGo, if_pos hok]
        exact List.mem_cons_self _ _
      · by_cases hb : pasoFiltro minuto dur b
        · simp only [filtrarGo, if_pos hb]
          exact List.mem_cons_of_mem _ (ih minuto dur res ha' hok)
        · simp only [filtrarGo, if_neg hb]
          exact ih minuto dur _ ha' hok

theorem filtrarGo_mem_rechazado (a : Avion) :
    ∀ (s : List Avion) (minuto : ℤ) (dur : ℚ) (res : Resultados), a ∈ s →
      ¬ pasoFiltro minuto dur a →
      a.marcar_desviado ∈ (filtrarGo s minuto dur res).2.1 := by
  intro s
  induction s with
  | nil => intro _ _ _ ha _; cases ha
  | cons b rest ih =>
      intro minuto dur res ha hbad
      rcases List.mem_cons.mp ha with rfl | ha'
      · simp only [filtrarGo, if_neg hbad]
        exact List.mem_cons_self _ _
      · by_cases hb : pasoFiltro minuto dur b
        · simp only [filtrarGo, if_pos hb]
          exact ih minuto dur res ha' hbad
        · simp only [filtrarGo, if_neg hb]
          exact List.mem_cons_of_mem _ (ih minuto dur _ ha' hbad)

theorem filtrarGo_desviados :
    ∀ (s : List Avion) (minuto : ℤ) (dur : ℚ) (res : Resultados),
      (filtrarGo s minuto dur res).2.2.desviados =
        res.desviados + s.countP (fun b => decide (¬ pasoFiltro minuto dur b)) := by
  intro s
  induction s with
  | nil => intro _ _ _; simp [filtrarGo]
  | cons b rest ih =>
      intro minuto dur res
      by_cases hb : pasoFiltro minuto dur b
      · have hfb : decide (¬ pasoFiltro minuto dur b) = false :=
          decide_eq_false (not_not_intro hb)
        simp only [filtrarGo, if_pos hb]
        rw [ih, List.countP_cons]
        rw [hfb]
        simp
      · have hfb : decide (¬ pasoFiltro minuto dur b) = true := decide_eq_true hb
        simp only [filtrarGo, if_neg hb]
        rw [ih, List.countP_cons]
        rw [hfb]
        have hproj : ({ res with desviados := res.desviados + 1 } : Resultados).desviados
            = res.desviados + 1 := rfl
        rw [hproj]
        have hif : (if (true = true) then (1 : ℕ) else 0) = 1 := if_pos rfl
        rw [hif]
        omega

/-- **C8 (amended).** `calcular_tiempo_esperado` never returns "infinite"
(the `inf` return guards a nonpositive per-minute advance, impossible as
every band maximum is ≥ 150; an exhausted iteration bound returns the
finite count, see the counterexample). `filtrar_aviones_a_tiempo` admits
an aircraft exactly when `minuto + estimate ≤ duracion_horas*60`, and
otherwise marks it `desviado` with speed 0 and increments the diverted
counter once per rejected aircraft. -/
theorem tiempo_esperado_y_filtro (d : ℚ) (l : List Avion) (minuto : ℤ)
    (dur : ℚ) (res : Resultados) (a : Avion) (hmem : a ∈ l) :
    calcular_tiempo_esperado d ≠ (⊤ : WithTop ℕ) ∧
    (tiempoLlegada minuto a ≤ ((dur * 60 : ℚ) : WithTop ℚ) →
      a ∈ (filtrar_aviones_a_tiempo l minuto dur res).1) ∧
    (((dur * 60 : ℚ) : WithTop ℚ) < tiempoLlegada minuto a →
      a.marcar_desviado ∈ (filtrar_aviones_a_tiempo l minuto dur res).2.1 ∧
      a.marcar_desviado.estado = Estado.desviado ∧
      a.marcar_desviado.velocidad_actual = 0) ∧
    (filtrar_aviones_a_tiempo l minuto dur res).2.2.desviados =
      res.desviados + (ordenarPorPos l).countP
        (fun b => decide (¬ pasoFiltro minuto dur b)) := by
  have hmem' : a ∈ ordenarPorPos l := by
    unfold ordenarPorPos
    exact (List.mem_insertionSort clavePos).mpr hmem
  refine ⟨cteGo_ne_top _ _ _, ?_, ?_, filtrarGo_desviados _ minuto dur res⟩
  · intro hok
    exact filtrarGo_mem_valido a (ordenarPorPos l) minuto dur res hmem' hok
  · intro hbad
    refine ⟨filtrarGo_mem_rechazado a (ordenarPorPos l) minuto dur res hmem'
      (not_le.mpr hbad), rfl, rfl⟩

theorem cteGo_cero (fuel acc : ℕ) : cteGo fuel (0 : ℚ) acc = ((acc : ℕ) : WithTop ℕ) := by
  cases fuel with
  | zero => simp [cteGo]
  | succ n => simp [cteGo]

/-- Witness for the amended C8: an aircraft over the threshold (estimate
0 minutes) is admitted at minute 10 of a 1-hour horizon, while at minute
61 it is rejected, marked `desviado`, and counted. -/
theorem tiempo_esperado_y_filtro_witness :
    calcular_tiempo_esperado 1000000 ≠ (⊤ : WithTop ℕ) ∧
    Avion.calcular_tiempo_esperado (avionDemoN 1 0 150) = ((0 : ℕ) : WithTop ℕ) ∧
    avionDemoN 1 0 150 ∈
      (filtrar_aviones_a_tiempo [avionDemoN 1 0 150] 10 1 inicializar_resultados).1 ∧
    (avionDemoN 1 0 150).marcar_desviado ∈
      (filtrar_aviones_a_tiempo [avionDemoN 1 0 150] 61 1 inicializar_resultados).2.1 ∧
    (filtrar_aviones_a_tiempo [avionDemoN 1 0 150] 61 1
      inicializar_resultados).2.2.desviados = 1 := by
  have hcte : Avion.calcular_tiempo_esperado (avionDemoN 1 0 150)
      = ((0 : ℕ) : WithTop ℕ) := cteGo_cero 100000 0
  have h10 := tiempo_esperado_y_filtro 1000000 [avionDemoN 1 0 150] 10 1
    inicializar_resultados (avionDemoN 1 0 150) (List.mem_singleton.mpr rfl)
  have h61 := tiempo_esperado_y_filtro 1000000 [avionDemoN 1 0 150] 61 1
    inicializar_resultados (avionDemoN 1 0 150) (List.mem_singleton.mpr rfl)
  have hok : tiempoLlegada 10 (avionDemoN 1 0 150) ≤ (((1 : ℚ) * 60 : ℚ) : WithTop ℚ) := by
    unfold tiempoLlegada
    rw [hcte]
    show (WithTop.some (((10 : ℤ) : ℚ) + ((0 : ℕ) : ℚ)) : WithTop ℚ)
      ≤ (((1 : ℚ) * 60 : ℚ) : WithTop ℚ)
    rw [WithTop.coe_le_coe]
    push_cast
    norm_num
  have hbad : (((1 : ℚ) * 60 : ℚ) : WithTop ℚ) < tiempoLlegada 61 (avionDemoN 1 0 150) := by
    unfold tiempoLlegada
    rw [hcte]
    show (((1 : ℚ) * 60 : ℚ) : WithTop ℚ)
      < (WithTop.some (((61 : ℤ) : ℚ) + ((0 : ℕ) : ℚ)) : WithTop ℚ)
    rw [WithTop.coe_lt_coe]
    push_cast
    norm_num
  have hnot : ¬ pasoFiltro 61 1 (avionDemoN 1 0 150) := not_le.mpr hbad
  refine ⟨h10.1, hcte, h10.2.1 hok, (h61.2.2.1 hbad).1, ?_⟩
  rw [h61.2.2.2]
  rw [show ordenarPorPos [avionDemoN 1 0 150] = [avionDemoN 1 0 150] from rfl,
    List.countP_cons, List.countP_nil]
  rw [decide_eq_true hnot]
  simp [inicializar_resultados]

/-! ### Storm window (`Horario_Tormenta`) -/

/-- Python's `int(...)` truncation towards zero on rationals. -/
def truncQ (q : ℚ) : ℤ := if 0 ≤ q then ⌊q⌋ else ⌈q⌉

/-- `Horario_Tormenta`: reject (`none`, modelling the raised `ValueError`)
a horizon shorter than 30 minutes; otherwise the 30 consecutive minutes
starting at the drawn `inicio` (the `randint(0, max_minuto - 30 + 1)`
draw is the parameter `inicio`). -/
def Horario_Tormenta (tiempoHoras : ℚ) (inicio : ℕ) : Option (List ℕ) :=
  if truncQ (tiempoHoras * 60) < 30 then none
  else some (List.range' inicio 30)

/-- **C9.** A horizon shorter than 30 minutes makes `Horario_Tormenta`
raise (return `none`); a horizon of at least 30 minutes yields exactly 30
consecutive integer minutes, all within `[0, tiempoHoras*60)`, for any
start within the `randint` range. -/
theorem tormenta_ventana (tiempoHoras : ℚ) (inicio : ℕ) :
    (tiempoHoras * 60 < 30 → Horario_Tormenta tiempoHoras inicio = none) ∧
    (30 ≤ tiempoHoras * 60 → (inicio : ℤ) ≤ truncQ (tiempoHoras * 60) - 30 →
      ∃ ventana, Horario_Tormenta tiempoHoras inicio = some ventana ∧
        ventana.length = 30 ∧
        (∀ k, k < 30 → ventana.get? k = some (inicio + k)) ∧
        (∀ m ∈ ventana, inicio ≤ m ∧ (m : ℚ) < tiempoHoras * 60)) := by
  constructor
  · intro hshort
    have htr : truncQ (tiempoHoras * 60) < 30 := by
      unfold truncQ
      by_cases h : (0 : ℚ) ≤ tiempoHoras * 60
      · rw [if_pos h]
        exact Int.floor_lt.mpr (by exact_mod_cast hshort)
      · rw [if_neg h]
        have : ⌈tiempoHoras * 60⌉ ≤ 0 :=
          Int.ceil_le.mpr (by push_cast; linarith [not_le.mp h])
        omega
    unfold Horario_Tormenta
    rw [if_pos htr]
  · intro hlong hini
    have h0 : (0 : ℚ) ≤ tiempoHoras * 60 := by linarith
    have htr : truncQ (tiempoHoras * 60) = ⌊tiempoHoras * 60⌋ := by
      unfold truncQ
      rw [if_pos h0]
    have hge : ¬ truncQ (tiempoHoras * 60) < 30 := by
      rw [htr]
      exact not_lt.mpr (Int.le_floor.mpr (by exact_mod_cast hlong))
    refine ⟨List.range' inicio 30, by unfold Horario_Tormenta; rw [if_neg hge],
      List.length_range' _ _ _, ?_, ?_⟩
    · intro k hk
      rw [List.get?_range' inicio 1 hk]
      simp
    · intro m hm
      rcases List.mem_range'_1.mp hm with ⟨hle, hlt⟩
      refine ⟨hle, ?_⟩
      have hm2 : (m : ℤ) < ⌊tiempoHoras * 60⌋ := by
        rw [htr] at hini
        omega
      calc (m : ℚ) < (⌊tiempoHoras * 60⌋ : ℚ) := by exact_mod_cast hm2
        _ ≤ tiempoHoras * 60 := Int.floor_le _

/-- Witness for C9: a 60-minute horizon with start 12 yields the 30
minutes `[12, 42)`, all inside `[0, 60)`. -/
theorem tormenta_ventana_witness :
    ∃ ventana, Horario_Tormenta 1 12 = some ventana ∧ ventana.length = 30 ∧
      ∀ m ∈ ventana, (m : ℚ) < (1 : ℚ) * 60 := by
  have h60 : truncQ ((1 : ℚ) * 60) = 60 := by
    unfold truncQ
    rw [if_pos (by norm_num)]
    rw [show ((1 : ℚ) * 60) = ((60 : ℤ) : ℚ) by norm_num, Int.floor_intCast]
  obtain ⟨v, hv, hlen, -, hbound⟩ := (tormenta_ventana 1 12).2
    (by norm_num) (by rw [h60]; norm_num)
  exact ⟨v, hv, hlen, fun m hm => (hbound m hm).2⟩

/-! ### Arrival generator (`generar_vuelos_poisson`, `crear_aviones`) -/

/-- Phase 1 of `generar_vuelos_poisson`: the `while tiempo < total_min`
loop, with the exponential draws supplied as the list `deltas` (the draws
the loop consumes); each accumulated time below the bound is kept. -/
def genTiemposReales (totalMin : ℚ) : ℚ → List ℚ → List ℚ
  | _, [] => []
  | t, d :: ds =>
      if t < totalMin then
        if t + d < totalMin then (t + d) :: genTiemposReales totalMin (t + d) ds
        else genTiemposReales totalMin (t + d) ds
      else []

/-- The `while minuto in ocupados and minuto < total_min: minuto += 1`
collision loop. -/
def buscarLibre (oc : List ℤ) (totalMin : ℤ) (m : ℤ) : ℤ :=
  if h : m ∈ oc ∧ m < totalMin then buscarLibre oc totalMin (m + 1) else m
termination_by (totalMin - m).toNat
decreasing_by
  rcases h with ⟨-, h2⟩
  omega

/-- Phase 2 of `generar_vuelos_poisson`: truncate each accepted time to an
integer minute, displace forward past occupied minutes, and keep it only
while still inside the horizon. -/
def resolverColisiones (totalMin : ℤ) : List ℤ → List ℚ → List ℤ
  | _, [] => []
  | oc, t :: ts =>
      if buscarLibre oc totalMin (truncQ t) < totalMin then
        buscarLibre oc totalMin (truncQ t) ::
          resolverColisiones totalMin (buscarLibre oc totalMin (truncQ t) :: oc) ts
      else resolverColisiones totalMin oc ts

/-- The final `tiempos_enteros.sort()`. -/
def ordenarInt (l : List ℤ) : List ℤ := l.insertionSort (· ≤ ·)

/-- `generar_vuelos_poisson`: for `lambda_hora ≤ 0` every draw is the
float `inf`, so phase 1 yields no time at all; otherwise the two phases
run on the supplied draws, and the minutes are sorted. -/
def generar_vuelos_poisson (lambdaHora duracionHoras : ℚ)
    (deltas : List ℚ) : List ℤ :=
  ordenarInt (resolverColisiones (truncQ (duracionHoras * 60)) []
    (if 0 < lambdaHora then
      genTiemposReales ((truncQ (duracionHoras * 60) : ℤ) : ℚ) 0 deltas
    else []))

/-- `crear_aviones`: one aircraft per generated minute, ids `1, 2, …` in
arrival order. -/
def crear_aviones (lambdaHora duracionHoras : ℚ) (deltas : List ℚ) : List Avion :=
  mapConIndice (fun i t => Avion.crear (i + 1) t DISTANCIA_INICIAL) 0
    (generar_vuelos_poisson lambdaHora duracionHoras deltas)

theorem buscarLibre_ge_aux (oc : List ℤ) (totalMin : ℤ) :
    ∀ (n : ℕ) (m : ℤ), (totalMin - m).toNat = n → m ≤ buscarLibre oc totalMin m := by
  intro n
  induction n using Nat.strong_induction_on with
  | _ n ih =>
      intro m hn
      rw [buscarLibre]
      by_cases h : m ∈ oc ∧ m < totalMin
      · rw [dif_pos h]
        have h2 := h.2
        have hlt : (totalMin - (m + 1)).toNat < n := by omega
        have := ih _ hlt (m + 1) rfl
        omega
      · rw [dif_neg h]

theorem buscarLibre_ge (oc : List ℤ) (totalMin m : ℤ) :
    m ≤ buscarLibre oc totalMin m :=
  buscarLibre_ge_aux oc totalMin _ m rfl

theorem buscarLibre_spec_aux (oc : List ℤ) (totalMin : ℤ) :
    ∀ (n : ℕ) (m : ℤ), (totalMin - m).toNat = n →
      ¬ (buscarLibre oc totalMin m ∈ oc ∧ buscarLibre oc totalMin m < totalMin) := by
  intro n
  induction n using Nat.strong_induction_on with
  | _ n ih =>
      intro m hn
      rw [buscarLibre]
      by_cases h : m ∈ oc ∧ m < totalMin
      · rw [dif_pos h]
        have h2 := h.2
        have hlt : (totalMin - (m + 1)).toNat < n := by omega
        exact ih _ hlt (m + 1) rfl
      · rw [dif_neg h]
        exact h

theorem buscarLibre_spec (oc : List ℤ) (totalMin m : ℤ) :
    ¬ (buscarLibre oc totalMin m ∈ oc ∧ buscarLibre oc totalMin m < totalMin) :=
  buscarLibre_spec_aux oc totalMin _ m rfl

theorem truncQ_nonneg {t : ℚ} (ht : 0 ≤ t) : 0 ≤ truncQ t := by
  unfold truncQ
  rw [if_pos ht]
  exact Int.floor_nonneg.mpr ht

theorem truncQ_sub_one_lt (q : ℚ) : ((truncQ q : ℤ) : ℚ) - 1 < q := by
  unfold truncQ
  by_cases h : (0 : ℚ) ≤ q
  · rw [if_pos h]
    have := Int.floor_le q
    linarith
  · rw [if_neg h]
    have := Int.ceil_lt_add_one q
    linarith

theorem genTiemposReales_nonneg (totalMin : ℚ) :
    ∀ (ds : List ℚ) (t : ℚ), 0 ≤ t → (∀ d ∈ ds, 0 ≤ d) →
      ∀ x ∈ genTiemposReales totalMin t ds, 0 ≤ x := by
  intro ds
  induction ds with
  | nil => intro t _ _ x hx; cases hx
  | cons d rest ih =>
      intro t ht hds x hx
      simp only [genTiemposReales] at hx
      have htd : 0 ≤ t + d := add_nonneg ht (hds d (List.mem_cons_self d rest))
      have hds' : ∀ e ∈ rest, 0 ≤ e := fun e he => hds e (List.mem_cons_of_mem _ he)
      by_cases h1 : t < totalMin
      · rw [if_pos h1] at hx
        by_cases h2 : t + d < totalMin
        · rw [if_pos h2] at hx
          rcases List.mem_cons.mp hx with rfl | hx'
          · exact htd
          · exact ih (t + d) htd hds' x hx'
        · rw [if_neg h2] at hx
          exact ih (t + d) htd hds' x hx
      · rw [if_neg h1] at hx
        cases hx

theorem resolverColisiones_spec (totalMin : ℤ) :
    ∀ (ts : List ℚ) (oc : List ℤ),
      (resolverColisiones totalMin oc ts).Nodup ∧
      ∀ x ∈ resolverColisiones totalMin oc ts, x ∉ oc ∧ x < totalMin := by
  intro ts
  induction ts with
  | nil => intro oc; exact ⟨List.nodup_nil, fun x hx => absurd hx (List.not_mem_nil x)⟩
  | cons t rest ih =>
      intro oc
      by_cases h : buscarLibre oc totalMin (truncQ t) < totalMin
      · have hnotoc : buscarLibre oc totalMin (truncQ t) ∉ oc := by
          intro hc
          exact buscarLibre_spec oc totalMin (truncQ t) ⟨hc, h⟩
        obtain ⟨hnd, hall⟩ := ih (buscarLibre oc totalMin (truncQ t) :: oc)
        simp only [resolverColisiones, if_pos h]
        constructor
        · refine List.nodup_cons.mpr ⟨?_, hnd⟩
          intro hc
          exact (hall _ hc).1 (List.mem_cons_self _ _)
        · intro x hx
          rcases List.mem_cons.mp hx with rfl | hx'
          · exact ⟨hnotoc, h⟩
          · obtain ⟨hxoc, hxlt⟩ := hall x hx'
            exact ⟨fun hc => hxoc (List.mem_cons_of_mem _ hc), hxlt⟩
      · simp only [resolverColisiones, if_neg h]
        exact ih oc

theorem resolverColisiones_nonneg (totalMin : ℤ) :
    ∀ (ts : List ℚ) (oc : List ℤ), (∀ t ∈ ts, 0 ≤ t) →
      ∀ x ∈ resolverColisiones totalMin oc ts, 0 ≤ x := by
  intro ts
  induction ts with
  | nil => intro oc _ x hx; cases hx
  | cons t rest ih =>
      intro oc hts x hx
      have ht : (0 : ℚ) ≤ t := hts t (List.mem_cons_self t rest)
      have hts' : ∀ u ∈ rest, 0 ≤ u := fun u hu => hts u (List.mem_cons_of_mem _ hu)
      by_cases h : buscarLibre oc totalMin (truncQ t) < totalMin
      · simp only [resolverColisiones, if_pos h] at hx
        rcases List.mem_cons.mp hx with rfl | hx'
        · exact le_trans (truncQ_nonneg ht) (buscarLibre_ge oc totalMin (truncQ t))
        · exact ih _ hts' x hx'
      · simp only [resolverColisiones, if_neg h] at hx
        exact ih oc hts' x hx

/-- **C6.** For rate 0 the generator returns the empty sequence; for any
nonnegative exponential draws the generated minutes are strictly
increasing (hence duplicate-free), every minute lies in
`[0, duracionHoras*60)`, and `crear_aviones` turns the `i`-th minute into
the aircraft with id `i+1` and that minute as `tiempo_radar`. -/
theorem generador_poisson_propiedades (lambdaHora duracionHoras : ℚ)
    (deltas : List ℚ) (hd : ∀ d ∈ deltas, 0 ≤ d) :
    (lambdaHora = 0 → generar_vuelos_poisson lambdaHora duracionHoras deltas = []) ∧
    List.Sorted (· < ·) (generar_vuelos_poisson lambdaHora duracionHoras deltas) ∧
    (∀ m ∈ generar_vuelos_poisson lambdaHora duracionHoras deltas,
      0 ≤ m ∧ (m : ℚ) < duracionHoras * 60) ∧
    (crear_aviones lambdaHora duracionHoras deltas).length =
      (generar_vuelos_poisson lambdaHora duracionHoras deltas).length ∧
    (∀ (i : ℕ) (t : ℤ),
      (generar_vuelos_poisson lambdaHora duracionHoras deltas).get? i = some t →
      ∃ a, (crear_aviones lambdaHora duracionHoras deltas).get? i = some a ∧
        a.num = i + 1 ∧ a.tiempo_radar = t ∧ a.estado = Estado.en_vuelo ∧
        a.posicion = DISTANCIA_INICIAL) := by
  have hreales : ∀ t ∈ (if 0 < lambdaHora then
      genTiemposReales ((truncQ (duracionHoras * 60) : ℤ) : ℚ) 0 deltas
      else []), (0 : ℚ) ≤ t := by
    by_cases hl : 0 < lambdaHora
    · rw [if_pos hl]
      exact genTiemposReales_nonneg _ deltas 0 le_rfl hd
    · rw [if_neg hl]
      intro t ht
      cases ht
  have hspec := resolverColisiones_spec (truncQ (duracionHoras * 60))
    (if 0 < lambdaHora then
      genTiemposReales ((truncQ (duracionHoras * 60) : ℤ) : ℚ) 0 deltas
      else []) []
  have hnneg := resolverColisiones_nonneg (truncQ (duracionHoras * 60))
    (if 0 < lambdaHora then
      genTiemposReales ((truncQ (duracionHoras * 60) : ℤ) : ℚ) 0 deltas
      else []) [] hreales
  refine ⟨?_, ?_, ?_, ?_, ?_⟩
  · intro h0
    unfold generar_vuelos_poisson
    rw [if_neg (by rw [h0]; exact lt_irrefl 0)]
    rfl
  · unfold generar_vuelos_poisson ordenarInt
    have hle := List.sorted_insertionSort (α := ℤ) (· ≤ ·)
      (resolverColisiones (truncQ (duracionHoras * 60)) []
        (if 0 < lambdaHora then
          genTiemposReales ((truncQ (duracionHoras * 60) : ℤ) : ℚ) 0 deltas
          else []))
    have hnd := (List.perm_insertionSort (α := ℤ) (· ≤ ·)
      (resolverColisiones (truncQ (duracionHoras * 60)) []
        (if 0 < lambdaHora then
          genTiemposReales ((truncQ (duracionHoras * 60) : ℤ) : ℚ) 0 deltas
          else []))).nodup_iff.mpr hspec.1
    exact hle.lt_of_le hnd
  · intro m hm
    unfold generar_vuelos_poisson ordenarInt at hm
    have hm' := (List.mem_insertionSort (α := ℤ) (· ≤ ·)).mp hm
    refine ⟨hnneg m hm', ?_⟩
    have hlt : m < truncQ (duracionHoras * 60) := (hspec.2 m hm').2
    have hq := truncQ_sub_one_lt (duracionHoras * 60)
    have hcast : (m : ℚ) ≤ ((truncQ (duracionHoras * 60) : ℤ) : ℚ) - 1 := by
      exact_mod_cast Int.le_sub_one_of_lt hlt
    linarith
  · unfold crear_aviones
    exact mapConIndice_length _ _ 0
  · intro i t hti
    have hmap := mapConIndice_get?
      (fun i t => Avion.crear (i + 1) t DISTANCIA_INICIAL)
      (generar_vuelos_poisson lambdaHora duracionHoras deltas) 0 i
    rw [hti] at hmap
    simp only [Option.map_some', Nat.zero_add] at hmap
    exact ⟨Avion.crear (i + 1) t DISTANCIA_INICIAL, hmap, rfl, rfl, rfl, rfl⟩

/-- Witness for C6: rate 0 gives no arrivals; rate 2 with draws
`[10, 0, 20]` over a 1-hour horizon gives continuous times 10, 10, 30,
whose integer minutes collide at 10, resolved to `[10, 11, 30]` — sorted,
duplicate-free, inside `[0, 60)`, with aircraft 2 contacting at minute 11. -/
theorem generador_poisson_propiedades_witness :
    generar_vuelos_poisson 0 1 [10, 0, 20] = [] ∧
    generar_vuelos_poisson 2 1 [10, 0, 20] = [10, 11, 30] ∧
    List.Sorted (· < ·) (generar_vuelos_poisson 2 1 [10, 0, 20]) ∧
    (∀ m ∈ generar_vuelos_poisson 2 1 [10, 0, 20],
      0 ≤ m ∧ (m : ℚ) < 1 * 60) ∧
    (∃ a, (crear_aviones 2 1 [10, 0, 20]).get? 1 = some a ∧
      a.num = 2 ∧ a.tiempo_radar = 11) := by
  have hd : ∀ d ∈ [(10 : ℚ), 0, 20], 0 ≤ d := by
    intro d hdm
    simp only [List.mem_cons, List.not_mem_nil, or_false] at hdm
    rcases hdm with rfl | rfl | rfl <;> norm_num
  have h0 := generador_poisson_propiedades 0 1 [10, 0, 20] hd
  have h2 := generador_poisson_propiedades 2 1 [10, 0, 20] hd
  have h60 : truncQ ((1 : ℚ) * 60) = 60 := by
    unfold truncQ
    rw [if_pos (by norm_num)]
    rw [show ((1 : ℚ) * 60) = ((60 : ℤ) : ℚ) by norm_num, Int.floor_intCast]
  have tq1 : truncQ (10 : ℚ) = 10 := by
    unfold truncQ
    rw [if_pos (by norm_num)]
    rw [show (10 : ℚ) = ((10 : ℤ) : ℚ) by norm_num, Int.floor_intCast]
  have tq3 : truncQ (30 : ℚ) = 30 := by
    unfold truncQ
    rw [if_pos (by norm_num)]
    rw [show (30 : ℚ) = ((30 : ℤ) : ℚ) by norm_num, Int.floor_intCast]
  have b1 : buscarLibre [] 60 10 = 10 := by
    rw [buscarLibre, dif_neg (by simp)]
  have b2 : buscarLibre [10] 60 10 = 11 := by
    rw [buscarLibre, dif_pos (by norm_num)]
    rw [buscarLibre, dif_neg (by norm_num)]
    norm_num
  have b3 : buscarLibre [11, 10] 60 30 = 30 := by
    rw [buscarLibre, dif_neg (by norm_num)]
  have e1 : genTiemposReales ((60 : ℤ) : ℚ) 0 [10, 0, 20] = [10, 10, 30] := by
    rw [genTiemposReales]
    rw [show (0 : ℚ) + 10 = 10 by norm_num]
    rw [if_pos (by norm_num : (0 : ℚ) < ((60 : ℤ) : ℚ)),
      if_pos (by norm_num : (10 : ℚ) < ((60 : ℤ) : ℚ))]
    rw [genTiemposReales]
    rw [show (10 : ℚ) + 0 = 10 by norm_num]
    rw [if_pos (by norm_num : (10 : ℚ) < ((60 : ℤ) : ℚ)),
      if_pos (by norm_num : (10 : ℚ) < ((60 : ℤ) : ℚ))]
    rw [genTiemposReales]
    rw [show (10 : ℚ) + 20 = 30 by norm_num]
    rw [if_pos (by norm_num : (10 : ℚ) < ((60 : ℤ) : ℚ)),
      if_pos (by norm_num : (30 : ℚ) < ((60 : ℤ) : ℚ))]
    rw [genTiemposReales]
  have e2 : resolverColisiones 60 [] [(10 : ℚ), 10, 30] = [10, 11, 30] := by
    rw [resolverColisiones, tq1, b1, if_pos (by norm_num : (10 : ℤ) < 60)]
    rw [resolverColisiones, tq1, b2, if_pos (by norm_num : (11 : ℤ) < 60)]
    rw [resolverColisiones, tq3, b3, if_pos (by norm_num : (30 : ℤ) < 60)]
    rw [resolverColisiones]
  have hgen : generar_vuelos_poisson 2 1 [10, 0, 20] = [10, 11, 30] := by
    unfold generar_vuelos_poisson
    rw [if_pos (by norm_num : (0 : ℚ) < 2), h60, e1, e2]
    rw [show ordenarInt [10, 11, 30] = [10, 11, 30] by decide]
  obtain ⟨a, ha, hnum, hradar, -, -⟩ :=
    h2.2.2.2.2 1 11 (by rw [hgen]; rfl)
  exact ⟨h0.1 rfl, hgen, h2.2.1, h2.2.2.1, a, ha, hnum, hradar⟩

end AEP
